import Mathlib

/-!
Verification of the GuessWord repository's core logic: the per-guess
letter-coloring algorithm (`game/utils.py`), the guess form validation
(`game/forms.py`), and the game/quota state controller
(`game/views.py`, `game/models.py`), shallowly embedded in Lean 4.

Strings are modelled as `List Char`; Python's `str.upper`/`str.isalpha`
are modelled with Lean's ASCII `Char.toUpper`/`Char.isAlpha` (all words
in the game are ASCII letters).
-/

/-! ## Coloring engine: embedding of `compute_guess_colors` (game/utils.py) -/

/-- A Python `dict` mapping characters to ints, as an optional-valued
function: `none` means the key is absent. -/
def PyDict := Char → Option Int

/-- `d[c] = v` (insertion / overwrite). -/
def dset (f : PyDict) (c : Char) (v : Int) : PyDict :=
  fun x => if x = c then some v else f x

/-- `target_freq = {}` followed by
`for char in target: target_freq[char] = target_freq.get(char, 0) + 1`. -/
def buildFreq (target : List Char) : PyDict :=
  target.foldl (fun f c => dset f c ((f c).getD 0 + 1)) (fun _ => none)

/-- The loop state of `compute_guess_colors`: the `result` list (letters as
one-character strings, colors as strings, `("", "")` when unassigned) and
the `target_freq` dict. -/
structure CState where
  result : List (String × String)
  freq : PyDict

/-- One iteration of the first pass:
`if guess[i] == target[i]: result[i] = (guess[i], "green"); target_freq[guess[i]] -= 1`.
(The key `guess[i]` is present in the dict whenever the branch is taken,
so reading it with a default of 0 is faithful.) -/
def pass1Step (g t : Nat → Char) (s : CState) (i : Nat) : CState :=
  if g i = t i then
    { result := s.result.set i (String.mk [g i], "green"),
      freq := dset s.freq (g i) ((s.freq (g i)).getD 0 - 1) }
  else s

/-- One iteration of the second pass: skip greens, then
`if letter in target_freq and target_freq[letter] > 0` mark orange and
decrement, else mark grey. -/
def pass2Step (g : Nat → Char) (s : CState) (i : Nat) : CState :=
  if (s.result.getD i ("", "")).2 = "green" then s
  else
    match s.freq (g i) with
    | some n =>
      if n > 0 then
        { result := s.result.set i (String.mk [g i], "orange"),
          freq := dset s.freq (g i) (n - 1) }
      else { s with result := s.result.set i (String.mk [g i], "grey") }
    | none => { s with result := s.result.set i (String.mk [g i], "grey") }

/-- `compute_guess_colors(guess, target)` from `game/utils.py`: uppercase
both inputs, build the target frequency dict, run the two passes over
`range(5)` and return the result list. -/
def compute_guess_colors (guess target : List Char) : List (String × String) :=
  let guessU := guess.map Char.toUpper
  let targetU := target.map Char.toUpper
  let g := fun i => guessU.getD i ' '
  let t := fun i => targetU.getD i ' '
  let s0 : CState := ⟨List.replicate 5 ("", ""), buildFreq targetU⟩
  let s1 := (List.range 5).foldl (pass1Step g t) s0
  let s2 := (List.range 5).foldl (pass2Step g) s1
  s2.result

/-! ## Reference algorithm, modelled from the spec's words (§4.1)

A second, independent rendering of the coloring algorithm taken from the
specification text, to be compared with the code's embedding above:
classes are the spec's EXACT/PRESENT/ABSENT, the frequency table is an
integer count per letter, and unassigned positions are `none`. -/

/-- The spec's letter classes. -/
inductive LetterClass where
  | EXACT
  | PRESENT
  | ABSENT
deriving DecidableEq, Repr

/-- Loop state of the spec's reference algorithm. -/
structure SState where
  result : List (Option (Char × LetterClass))
  freq : Char → Int

/-- Spec pass 1: "for each position i where `guess[i] == target[i]`, assign
EXACT and decrement that letter's remaining count in the frequency table". -/
def specPass1Step (g t : Nat → Char) (s : SState) (i : Nat) : SState :=
  if g i = t i then
    { result := s.result.set i (some (g i, LetterClass.EXACT)),
      freq := fun c => if c = g i then s.freq c - 1 else s.freq c }
  else s

/-- Spec pass 2: "for each position not already EXACT, if the letter still
has remaining count > 0 in the frequency table, assign PRESENT and
decrement the count; otherwise assign ABSENT". -/
def specPass2Step (g : Nat → Char) (s : SState) (i : Nat) : SState :=
  match s.result.getD i none with
  | some _ => s
  | none =>
    if s.freq (g i) > 0 then
      { result := s.result.set i (some (g i, LetterClass.PRESENT)),
        freq := fun c => if c = g i then s.freq c - 1 else s.freq c }
    else { s with result := s.result.set i (some (g i, LetterClass.ABSENT)) }

/-- The spec's reference two-pass algorithm (§4.1): case-normalize, build a
frequency count of the target's letters, pass 1 then pass 2 left to right
over the five positions. -/
def classifySpec (guess target : List Char) : List (Option (Char × LetterClass)) :=
  let guessU := guess.map Char.toUpper
  let targetU := target.map Char.toUpper
  let g := fun i => guessU.getD i ' '
  let t := fun i => targetU.getD i ' '
  let s0 : SState := ⟨List.replicate 5 none, fun c => (targetU.count c : Int)⟩
  let s1 := (List.range 5).foldl (specPass1Step g t) s0
  let s2 := (List.range 5).foldl (specPass2Step g) s1
  s2.result

/-- Rendering a spec-side entry in the code's concrete representation. -/
def conv : Option (Char × LetterClass) → String × String
  | none => ("", "")
  | some (c, LetterClass.EXACT) => (String.mk [c], "green")
  | some (c, LetterClass.PRESENT) => (String.mk [c], "orange")
  | some (c, LetterClass.ABSENT) => (String.mk [c], "grey")

/-! ## Data model: rows of the relational schema (game/models.py)

Users, words and timestamps are opaque and modelled by `Nat` / `List Char`.
`games` is kept most-recent-first, matching the model's
`ordering = ["-started_at"]`. -/

/-- A row of `Game`. -/
structure GameRec where
  id : Nat
  userId : Nat
  target : List Char
  startedAt : Nat
  finishedAt : Option Nat
  won : Bool
deriving DecidableEq, Repr

/-- A row of `Guess`. -/
structure GuessRec where
  gameId : Nat
  text : List Char
  index : Nat
deriving DecidableEq, Repr

/-- A row of `DailyQuota`. -/
structure QuotaRec where
  userId : Nat
  date : Nat
  count : Nat
deriving DecidableEq, Repr

/-- The persistent store the request handlers read and write. -/
structure DB where
  games : List GameRec
  guesses : List GuessRec
  quotas : List QuotaRec
  words : List (List Char)
  nextGameId : Nat
deriving DecidableEq, Repr

/-- `game.guesses.count()` (`Game.guesses_count`). -/
def guessesCount (db : DB) (gid : Nat) : Nat :=
  (db.guesses.filter (fun q => q.gameId == gid)).length

/-- `Game.can_guess`: not finished and fewer than 5 guesses. -/
def canGuess (db : DB) (g : GameRec) : Bool :=
  g.finishedAt.isNone && guessesCount db g.id < 5

/-- `get_object_or_404(Game, id=game_id, user=request.user)`. -/
def findGame (db : DB) (gid uid : Nat) : Option GameRec :=
  db.games.find? (fun g => g.id == gid && g.userId == uid)

/-- Lookup of a game row by primary key. -/
def lookupGame (db : DB) (gid : Nat) : Option GameRec :=
  db.games.find? (fun g => g.id == gid)

/-- `Game.objects.filter(user=.., finished_at__isnull=True).first()` —
the most recently started unfinished game of the user, if any. -/
def firstActive (db : DB) (uid : Nat) : Option GameRec :=
  db.games.find? (fun g => g.userId == uid && g.finishedAt.isNone)

/-- The stored `DailyQuota` row for (user, date), if any. -/
def findQuota (db : DB) (uid date : Nat) : Option QuotaRec :=
  db.quotas.find? (fun q => q.userId == uid && q.date == date)

/-- The user's quota count for a date (0 when no row exists). -/
def quotaCount (db : DB) (uid date : Nat) : Nat :=
  ((findQuota db uid date).map QuotaRec.count).getD 0

/-- `DailyQuota.objects.get_or_create(user=.., date=..)`: return the stored
row, creating it with count 0 when absent. -/
def getOrCreateQuota (db : DB) (uid date : Nat) : QuotaRec × DB :=
  match findQuota db uid date with
  | some q => (q, db)
  | none =>
    let q : QuotaRec := ⟨uid, date, 0⟩
    (q, { db with quotas := db.quotas ++ [q] })

/-- `quota.words_started_count += 1; quota.save()`. -/
def bumpQuota (db : DB) (uid date : Nat) : DB :=
  { db with
    quotas := db.quotas.map (fun q =>
      if q.userId == uid && q.date == date then { q with count := q.count + 1 } else q) }

/-- `game.save()` after mutating the row with the given id. -/
def setGame (db : DB) (gid : Nat) (f : GameRec → GameRec) : DB :=
  { db with games := db.games.map (fun g => if g.id == gid then f g else g) }

/-! ## Guess form validation (game/forms.py)

`GuessForm.guess` is a `CharField(min_length=5, max_length=5)`; the
framework's `CharField` strips leading/trailing whitespace by default and
rejects empty input before the length validators run, after which
`clean_guess` uppercases and checks length and `isalpha`. -/

/-- Leading/trailing-whitespace strip performed by the form field. -/
def stripEnds (s : List Char) : List Char :=
  ((s.dropWhile Char.isWhitespace).reverse.dropWhile Char.isWhitespace).reverse

/-- Full validation pipeline for the guess field: `none` is a validation
failure (the view surfaces it as an error message), `some text` the
cleaned 5-letter uppercase guess. -/
def cleanGuess (raw : List Char) : Option (List Char) :=
  let s := stripEnds raw
  if s.isEmpty then none
  else if 5 < s.length then none
  else if s.length < 5 then none
  else
    let g := s.map Char.toUpper
    if g.length ≠ 5 then none
    else if !g.all Char.isAlpha then none
    else some g

/-! ## Request handlers (game/views.py) -/

/-- Outcome of `start_game`, read off the view's messages/redirects. -/
inductive StartResult where
  | quotaExceeded
  | alreadyActive (gameId : Nat)
  | noWords
  | started (gameId : Nat)
deriving DecidableEq, Repr

/-- `start_game(request)`: quota check, active-game check, random word
pick (`pick` is the randomness, reduced modulo the pool size), game
creation and quota increment, all under one transaction. -/
def start_game (db : DB) (uid today pick now : Nat) : StartResult × DB :=
  let qd := getOrCreateQuota db uid today
  let quota := qd.1
  let db1 := qd.2
  if 3 ≤ quota.count then (StartResult.quotaExceeded, db1)
  else
    match firstActive db1 uid with
    | some g => (StartResult.alreadyActive g.id, db1)
    | none =>
      if db1.words.isEmpty then (StartResult.noWords, db1)
      else
        let target := db1.words.getD (pick % db1.words.length) []
        let game : GameRec :=
          ⟨db1.nextGameId, uid, target, now, none, false⟩
        let db2 := { db1 with
          games := game :: db1.games,
          nextGameId := db1.nextGameId + 1 }
        (StartResult.started game.id, bumpQuota db2 uid today)

/-- Outcome of `submit_guess`, read off the view's messages. -/
inductive SubmitResult where
  | notFound
  | gameFinished
  | invalidGuess
  | wonNow
  | lostNow
  | keepPlaying
deriving DecidableEq, Repr

/-- `submit_guess(request, game_id)` (POST path): ownership lookup,
`can_guess` check, form validation, guess insertion at index
`guesses_count + 1`, then the win / exhaustion / continue branches. -/
def submit_guess (db : DB) (uid gid : Nat) (raw : List Char) (now : Nat) :
    SubmitResult × DB :=
  match findGame db gid uid with
  | none => (SubmitResult.notFound, db)
  | some game =>
    if !canGuess db game then (SubmitResult.gameFinished, db)
    else
      match cleanGuess raw with
      | none => (SubmitResult.invalidGuess, db)
      | some text =>
        let idx := guessesCount db game.id + 1
        let db1 := { db with guesses := db.guesses ++ [⟨game.id, text, idx⟩] }
        if text = game.target then
          (SubmitResult.wonNow,
           setGame db1 game.id (fun g => { g with won := true, finishedAt := some now }))
        else if 5 ≤ idx then
          (SubmitResult.lostNow,
           setGame db1 game.id (fun g => { g with won := false, finishedAt := some now }))
        else (SubmitResult.keepPlaying, db1)

/-! ## Simulation between the code's embedding and the spec's algorithm -/

/-- Coupling between a Python dict entry and the spec's integer count:
an absent key corresponds to a zero count. -/
def freqRel : Option Int → Int → Prop
  | some v, w => v = w
  | none, w => w = 0

/-- Coupling between the code's loop state and the spec's. -/
def SRel (s : CState) (u : SState) : Prop :=
  s.result = u.result.map conv ∧ ∀ c, freqRel (s.freq c) (u.freq c)

/-- A result entry as pass 1 leaves it: unassigned or EXACT. -/
def p1entry (e : Option (Char × LetterClass)) : Prop :=
  e = none ∨ ∃ c, e = some (c, LetterClass.EXACT)

theorem freqRel_getD {o : Option Int} {w : Int} (h : freqRel o w) : o.getD 0 = w := by
  cases o with
  | none => simpa [freqRel] using h.symm
  | some v => simpa [freqRel] using h

theorem getD_map_conv (l : List (Option (Char × LetterClass))) (i : Nat) :
    (l.map conv).getD i ("", "") = conv (l.getD i none) := by
  induction l generalizing i with
  | nil => rfl
  | cons a l ih =>
    cases i with
    | zero => rfl
    | succ n => simpa using ih n

theorem buildFreq_loop (l : List Char) :
    ∀ (f0 : PyDict) (n0 : Char → Int), (∀ c, freqRel (f0 c) (n0 c)) →
      ∀ c, freqRel ((l.foldl (fun f c => dset f c ((f c).getD 0 + 1)) f0) c)
        (n0 c + l.count c) := by
  induction l with
  | nil => intro f0 n0 h c; simpa using h c
  | cons a l ih =>
    intro f0 n0 h c
    have hstep : ∀ c', freqRel ((dset f0 a ((f0 a).getD 0 + 1)) c')
        (if c' = a then n0 c' + 1 else n0 c') := by
      intro c'
      unfold dset
      by_cases hc : c' = a
      · rw [if_pos hc, if_pos hc, hc]
        have hg := freqRel_getD (h a)
        simp [freqRel, hg]
      · rw [if_neg hc, if_neg hc]
        exact h c'
    have hrec := ih _ _ hstep c
    have harith : (if c = a then n0 c + 1 else n0 c) + (l.count c : Int)
        = n0 c + ((a :: l).count c : Int) := by
      rw [List.count_cons]
      by_cases hc : c = a
      · simp only [if_pos hc, hc, beq_self_eq_true, if_true]
        push_cast
        ring
      · have hb : (a == c) = false := beq_eq_false_iff_ne.mpr (Ne.symm hc)
        simp [if_neg hc, hb]
    rw [harith] at hrec
    simpa using hrec

theorem buildFreq_count (target : List Char) (c : Char) :
    freqRel (buildFreq target c) (target.count c) := by
  have h0 : ∀ c', freqRel ((fun _ : Char => (none : Option Int)) c')
      ((fun _ : Char => (0 : Int)) c') := by
    intro c'
    simp [freqRel]
  have := buildFreq_loop target _ _ h0 c
  simpa [buildFreq] using this

theorem SRel_pass1Step (g t : Nat → Char) (i : Nat) {s : CState} {u : SState}
    (h : SRel s u) : SRel (pass1Step g t s i) (specPass1Step g t u i) := by
  obtain ⟨hr, hf⟩ := h
  unfold pass1Step specPass1Step
  by_cases hgt : g i = t i
  · rw [if_pos hgt, if_pos hgt]
    refine ⟨?_, ?_⟩
    · simp only [List.map_set, hr]
      rfl
    · intro c
      show freqRel (dset s.freq (g i) ((s.freq (g i)).getD 0 - 1) c)
          (if c = g i then u.freq c - 1 else u.freq c)
      simp only [dset]
      by_cases hc : c = g i
      · rw [if_pos hc, if_pos hc, hc]
        have hg := freqRel_getD (hf (g i))
        simp [freqRel, hg]
      · rw [if_neg hc, if_neg hc]
        exact hf c
  · rw [if_neg hgt, if_neg hgt]
    exact ⟨hr, hf⟩

theorem pass2Step_skip (g : Nat → Char) (i : Nat) (s : CState)
    (hcond : (s.result.getD i ("", "")).2 = "green") : pass2Step g s i = s := by
  unfold pass2Step
  rw [if_pos hcond]

theorem pass2Step_go_some (g : Nat → Char) (i : Nat) (s : CState) (n : Int)
    (hcond : ¬ (s.result.getD i ("", "")).2 = "green") (hsf : s.freq (g i) = some n) :
    pass2Step g s i =
      if n > 0 then
        ⟨s.result.set i (String.mk [g i], "orange"), dset s.freq (g i) (n - 1)⟩
      else { s with result := s.result.set i (String.mk [g i], "grey") } := by
  unfold pass2Step
  rw [if_neg hcond, hsf]

theorem pass2Step_go_none (g : Nat → Char) (i : Nat) (s : CState)
    (hcond : ¬ (s.result.getD i ("", "")).2 = "green") (hsf : s.freq (g i) = none) :
    pass2Step g s i = { s with result := s.result.set i (String.mk [g i], "grey") } := by
  unfold pass2Step
  rw [if_neg hcond, hsf]

theorem specPass2Step_skip (g : Nat → Char) (i : Nat) (u : SState)
    (e : Char × LetterClass) (hm : u.result.getD i none = some e) :
    specPass2Step g u i = u := by
  unfold specPass2Step
  rw [hm]

theorem specPass2Step_go (g : Nat → Char) (i : Nat) (u : SState)
    (hm : u.result.getD i none = none) :
    specPass2Step g u i =
      if u.freq (g i) > 0 then
        ⟨u.result.set i (some (g i, LetterClass.PRESENT)),
         fun c => if c = g i then u.freq c - 1 else u.freq c⟩
      else { u with result := u.result.set i (some (g i, LetterClass.ABSENT)) } := by
  unfold specPass2Step
  rw [hm]

theorem SRel_pass2Step (g : Nat → Char) (i : Nat) {s : CState} {u : SState}
    (h : SRel s u) (hp : p1entry (u.result.getD i none)) :
    SRel (pass2Step g s i) (specPass2Step g u i) := by
  obtain ⟨hr, hf⟩ := h
  have hconv : s.result.getD i ("", "") = conv (u.result.getD i none) := by
    rw [hr]
    exact getD_map_conv _ _
  rcases hp with hnone | ⟨c, hex⟩
  · have hcond : ¬ (s.result.getD i ("", "")).2 = "green" := by
      rw [hconv, hnone]
      simp [conv]
    have hfg := hf (g i)
    cases hsf : s.freq (g i) with
    | none =>
      rw [hsf] at hfg
      have hzero : u.freq (g i) = 0 := hfg
      rw [pass2Step_go_none g i s hcond hsf, specPass2Step_go g i u hnone,
        if_neg (by omega : ¬ u.freq (g i) > 0)]
      exact ⟨by simp only [List.map_set, hr]; rfl, hf⟩
    | some n =>
      rw [hsf] at hfg
      have hn : n = u.freq (g i) := hfg
      rw [pass2Step_go_some g i s n hcond hsf, specPass2Step_go g i u hnone]
      by_cases hpos : n > 0
      · rw [if_pos hpos, if_pos (by omega : u.freq (g i) > 0)]
        refine ⟨by simp only [List.map_set, hr]; rfl, ?_⟩
        intro c'
        show freqRel (dset s.freq (g i) (n - 1) c')
            (if c' = g i then u.freq c' - 1 else u.freq c')
        simp only [dset]
        by_cases hc : c' = g i
        · rw [if_pos hc, if_pos hc, hc]
          simp [freqRel, hn]
        · rw [if_neg hc, if_neg hc]
          exact hf c'
      · rw [if_neg hpos, if_neg (by omega : ¬ u.freq (g i) > 0)]
        exact ⟨by simp only [List.map_set, hr]; rfl, hf⟩
  · have hcond : (s.result.getD i ("", "")).2 = "green" := by
      rw [hconv, hex]
      rfl
    rw [pass2Step_skip g i s hcond, specPass2Step_skip g i u _ hex]
    exact ⟨hr, hf⟩

theorem getD_set_cases {α : Type} (l : List α) (i j : Nat) (x d : α) :
    (l.set i x).getD j d = x ∨ (l.set i x).getD j d = l.getD j d := by
  by_cases hij : i = j
  · subst hij
    by_cases hi : i < l.length
    · left
      simp [List.getD_eq_getElem?_getD, List.getElem?_set_self hi]
    · right
      rw [List.set_eq_of_length_le (Nat.le_of_not_lt hi)]
  · right
    simp [List.getD_eq_getElem?_getD, List.getElem?_set_ne hij]

theorem getD_set_ne {α : Type} {l : List α} {i j : Nat} (hij : i ≠ j) (x d : α) :
    (l.set i x).getD j d = l.getD j d := by
  simp [List.getD_eq_getElem?_getD, List.getElem?_set_ne hij]

theorem getD_replicate_none {α : Type} (n i : Nat) :
    (List.replicate n (none : Option α)).getD i none = none := by
  induction n generalizing i with
  | zero => rfl
  | succ n ih =>
    cases i with
    | zero => rfl
    | succ j => simp [List.replicate_succ, ih j]

theorem SRel_pass1_fold (g t : Nat → Char) (L : List Nat) :
    ∀ {s : CState} {u : SState}, SRel s u →
      SRel (L.foldl (pass1Step g t) s) (L.foldl (specPass1Step g t) u) := by
  induction L with
  | nil => intro s u h; exact h
  | cons i L ih =>
    intro s u h
    exact ih (SRel_pass1Step g t i h)

theorem p1entry_pass1_fold (g t : Nat → Char) (L : List Nat) :
    ∀ {u : SState}, (∀ j, p1entry (u.result.getD j none)) →
      ∀ j, p1entry ((L.foldl (specPass1Step g t) u).result.getD j none) := by
  induction L with
  | nil => intro u h; exact h
  | cons i L ih =>
    intro u h
    apply ih
    intro j
    unfold specPass1Step
    by_cases hgt : g i = t i
    · rw [if_pos hgt]
      show p1entry ((u.result.set i (some (g i, LetterClass.EXACT))).getD j none)
      rcases getD_set_cases u.result i j (some (g i, LetterClass.EXACT)) none with he | he
      · rw [he]
        exact Or.inr ⟨g i, rfl⟩
      · rw [he]
        exact h j
    · rw [if_neg hgt]
      exact h j

theorem specPass2Step_getD_ne (g : Nat → Char) (i j : Nat) (u : SState) (hij : i ≠ j) :
    (specPass2Step g u i).result.getD j none = u.result.getD j none := by
  cases hm : u.result.getD i none with
  | some e => rw [specPass2Step_skip g i u e hm]
  | none =>
    rw [specPass2Step_go g i u hm]
    by_cases hpos : u.freq (g i) > 0
    · rw [if_pos hpos]
      exact getD_set_ne hij _ _
    · rw [if_neg hpos]
      exact getD_set_ne hij _ _

theorem SRel_pass2_fold (g : Nat → Char) (L : List Nat) :
    ∀ {s : CState} {u : SState}, L.Nodup → SRel s u →
      (∀ i ∈ L, p1entry (u.result.getD i none)) →
      SRel (L.foldl (pass2Step g) s) (L.foldl (specPass2Step g) u) := by
  induction L with
  | nil => intro s u _ h _; exact h
  | cons i L ih =>
    intro s u hnd h hp
    have hstep := SRel_pass2Step g i h (hp i (List.mem_cons_self i L))
    refine ih (List.Nodup.of_cons hnd) hstep ?_
    intro j hj
    have hij : i ≠ j := by
      intro hcontra
      exact (List.nodup_cons.mp hnd).1 (hcontra ▸ hj)
    rw [specPass2Step_getD_ne g i j u hij]
    exact hp j (List.mem_cons_of_mem i hj)

/-- The code's `compute_guess_colors` computes exactly the spec's reference
two-pass algorithm, rendered through `conv`. -/
theorem classify_sim (guess target : List Char) :
    compute_guess_colors guess target = (classifySpec guess target).map conv := by
  unfold compute_guess_colors classifySpec
  dsimp only
  have h0 : SRel
      ⟨List.replicate 5 ("", ""), buildFreq (target.map Char.toUpper)⟩
      ⟨List.replicate 5 none, fun c => ((target.map Char.toUpper).count c : Int)⟩ := by
    refine ⟨?_, ?_⟩
    · show List.replicate 5 ("", "") = (List.replicate 5 none).map conv
      simp [conv]
    · intro c
      exact buildFreq_count _ c
  have h1 := SRel_pass1_fold
    (fun i => (guess.map Char.toUpper).getD i ' ')
    (fun i => (target.map Char.toUpper).getD i ' ') (List.range 5) h0
  have hent := p1entry_pass1_fold
    (fun i => (guess.map Char.toUpper).getD i ' ')
    (fun i => (target.map Char.toUpper).getD i ' ') (List.range 5)
    (u := ⟨List.replicate 5 none, fun c => ((target.map Char.toUpper).count c : Int)⟩)
    (fun j => Or.inl (getD_replicate_none 5 j))
  have h2 := SRel_pass2_fold
    (fun i => (guess.map Char.toUpper).getD i ' ') (List.range 5)
    (List.nodup_range 5) h1 (fun i _ => hent i)
  exact h2.1

/-! ## Conservation of letter credit (spec §8, claim on EXACT+PRESENT counts) -/

/-- Number of positions of a (spec-side) result that claim letter `c`,
i.e. are classified EXACT or PRESENT with letter `c`. -/
def claimed (res : List (Option (Char × LetterClass))) (c : Char) : Nat :=
  res.countP (fun e =>
    e == some (c, LetterClass.EXACT) || e == some (c, LetterClass.PRESENT))

theorem countP_set_le {α : Type} (l : List α) (i : Nat) (a : α) (p : α → Bool) :
    (l.set i a).countP p ≤ l.countP p + (if p a then 1 else 0) := by
  induction l generalizing i with
  | nil => simp
  | cons b l ih =>
    cases i with
    | zero =>
      simp only [List.set_cons_zero, List.countP_cons]
      by_cases hpa : p a <;> by_cases hpb : p b <;> simp [hpa, hpb]
    | succ n =>
      simp only [List.set_cons_succ, List.countP_cons]
      have h := ih n
      by_cases hpa : p a <;> by_cases hpb : p b <;>
        simp only [hpa, hpb, if_true, if_false] at h ⊢ <;> omega

theorem count_eq_range_countP (l : List Char) (d c : Char) :
    (List.range l.length).countP (fun i => l.getD i d == c) = l.count c := by
  induction l with
  | nil => rfl
  | cons a tl ih =>
    show (List.range (tl.length + 1)).countP (fun i => (a :: tl).getD i d == c)
        = (a :: tl).count c
    rw [List.range_succ_eq_map, List.countP_cons, List.countP_map, List.count_cons]
    have hpred : ((fun i => (a :: tl).getD i d == c) ∘ Nat.succ)
        = (fun i => tl.getD i d == c) := by
      funext j
      rfl
    rw [hpred, ih]
    by_cases hc : a = c
    · simp [hc]
    · simp [hc, Ne.symm hc]

theorem pass1_inv (g t : Nat → Char) (cnt : Char → Int) (L : List Nat) :
    ∀ (u : SState),
      (∀ c, (claimed u.result c : Int) + u.freq c ≤ cnt c) →
      (∀ c, ((L.countP (fun i => t i == c)) : Int) ≤ u.freq c) →
      (∀ c, (claimed (L.foldl (specPass1Step g t) u).result c : Int)
            + (L.foldl (specPass1Step g t) u).freq c ≤ cnt c)
      ∧ (∀ c, 0 ≤ (L.foldl (specPass1Step g t) u).freq c) := by
  induction L with
  | nil =>
    intro u h1 h2
    refine ⟨h1, fun c => ?_⟩
    have := h2 c
    simpa using this
  | cons i L ih =>
    intro u h1 h2
    simp only [List.foldl_cons]
    apply ih
    · intro c
      unfold specPass1Step
      by_cases hgt : g i = t i
      · rw [if_pos hgt]
        show (claimed (u.result.set i (some (g i, LetterClass.EXACT))) c : Int)
            + (if c = g i then u.freq c - 1 else u.freq c) ≤ cnt c
        have hset := countP_set_le u.result i (some (g i, LetterClass.EXACT))
          (fun e => e == some (c, LetterClass.EXACT) || e == some (c, LetterClass.PRESENT))
        have h1c := h1 c
        by_cases hc : c = g i
        · rw [if_pos hc]
          have hind : ((some (g i, LetterClass.EXACT) == some (c, LetterClass.EXACT)
              || some (g i, LetterClass.EXACT) == some (c, LetterClass.PRESENT))) = true := by
            simp [hc]
          rw [hind] at hset
          unfold claimed at h1c ⊢
          simp at hset
          omega
        · have hind : ((some (g i, LetterClass.EXACT) == some (c, LetterClass.EXACT)
              || some (g i, LetterClass.EXACT) == some (c, LetterClass.PRESENT))) = false := by
            simp [Ne.symm hc]
          rw [hind] at hset
          rw [if_neg hc]
          unfold claimed at h1c ⊢
          simp at hset
          omega
      · rw [if_neg hgt]
        exact h1 c
    · intro c
      unfold specPass1Step
      by_cases hgt : g i = t i
      · rw [if_pos hgt]
        show ((L.countP (fun i => t i == c)) : Int)
            ≤ (if c = g i then u.freq c - 1 else u.freq c)
        have h2c := h2 c
        rw [List.countP_cons] at h2c
        by_cases hc : c = g i
        · rw [if_pos hc]
          have hti : (t i == c) = true := by
            rw [hc, ← hgt]
            simp
          rw [hti] at h2c
          simp only [if_true] at h2c
          push_cast at h2c ⊢
          omega
        · rw [if_neg hc]
          have := h2c
          by_cases hti : (t i == c) = true <;> simp [hti] at this <;> omega
      · rw [if_neg hgt]
        have h2c := h2 c
        rw [List.countP_cons] at h2c
        by_cases hti : (t i == c) = true <;> simp [hti] at h2c <;> omega

theorem pass2_inv (g : Nat → Char) (cnt : Char → Int) (L : List Nat) :
    ∀ (u : SState),
      (∀ c, (claimed u.result c : Int) + u.freq c ≤ cnt c) →
      (∀ c, 0 ≤ u.freq c) →
      (∀ c, (claimed (L.foldl (specPass2Step g) u).result c : Int)
            + (L.foldl (specPass2Step g) u).freq c ≤ cnt c)
      ∧ (∀ c, 0 ≤ (L.foldl (specPass2Step g) u).freq c) := by
  induction L with
  | nil => intro u h1 h2; exact ⟨h1, h2⟩
  | cons i L ih =>
    intro u h1 h2
    simp only [List.foldl_cons]
    apply ih
    · intro c
      cases hm : u.result.getD i none with
      | some e => rw [specPass2Step_skip g i u e hm]; exact h1 c
      | none =>
        rw [specPass2Step_go g i u hm]
        by_cases hpos : u.freq (g i) > 0
        · rw [if_pos hpos]
          show (claimed (u.result.set i (some (g i, LetterClass.PRESENT))) c : Int)
              + (if c = g i then u.freq c - 1 else u.freq c) ≤ cnt c
          have hset := countP_set_le u.result i (some (g i, LetterClass.PRESENT))
            (fun e => e == some (c, LetterClass.EXACT) || e == some (c, LetterClass.PRESENT))
          have h1c := h1 c
          by_cases hc : c = g i
          · rw [if_pos hc]
            have hind : ((some (g i, LetterClass.PRESENT) == some (c, LetterClass.EXACT)
                || some (g i, LetterClass.PRESENT) == some (c, LetterClass.PRESENT))) = true := by
              simp [hc]
            rw [hind] at hset
            unfold claimed at h1c ⊢
            simp at hset
            omega
          · have hind : ((some (g i, LetterClass.PRESENT) == some (c, LetterClass.EXACT)
                || some (g i, LetterClass.PRESENT) == some (c, LetterClass.PRESENT))) = false := by
              simp [Ne.symm hc]
            rw [hind] at hset
            rw [if_neg hc]
            unfold claimed at h1c ⊢
            simp at hset
            omega
        · rw [if_neg hpos]
          show (claimed (u.result.set i (some (g i, LetterClass.ABSENT))) c : Int)
              + u.freq c ≤ cnt c
          have hset := countP_set_le u.result i (some (g i, LetterClass.ABSENT))
            (fun e => e == some (c, LetterClass.EXACT) || e == some (c, LetterClass.PRESENT))
          have hind : ((some (g i, LetterClass.ABSENT) == some (c, LetterClass.EXACT)
              || some (g i, LetterClass.ABSENT) == some (c, LetterClass.PRESENT))) = false := by
            simp
          rw [hind] at hset
          have h1c := h1 c
          unfold claimed at h1c ⊢
          simp at hset
          omega
    · intro c
      cases hm : u.result.getD i none with
      | some e => rw [specPass2Step_skip g i u e hm]; exact h2 c
      | none =>
        rw [specPass2Step_go g i u hm]
        by_cases hpos : u.freq (g i) > 0
        · rw [if_pos hpos]
          show 0 ≤ (if c = g i then u.freq c - 1 else u.freq c)
          by_cases hc : c = g i
          · rw [if_pos hc, hc]
            omega
          · rw [if_neg hc]
            exact h2 c
        · rw [if_neg hpos]
          exact h2 c

/-- Conservation on the spec model: the claimed occurrences of a letter in
the final classification never exceed its count in the normalized target. -/
theorem classifySpec_claimed_le (guess target : List Char) (ht : target.length = 5)
    (c : Char) :
    (claimed (classifySpec guess target) c : Int)
      ≤ ((target.map Char.toUpper).count c : Int) := by
  unfold classifySpec
  dsimp only
  have h1 : ∀ c', (claimed (List.replicate 5 (none : Option (Char × LetterClass))) c' : Int)
      + ((target.map Char.toUpper).count c' : Int)
      ≤ ((target.map Char.toUpper).count c' : Int) := by
    intro c'
    have : claimed (List.replicate 5 (none : Option (Char × LetterClass))) c' = 0 := by
      unfold claimed
      simp
    rw [this]
    simp
  have h2 : ∀ c', (((List.range 5).countP
        (fun i => (target.map Char.toUpper).getD i ' ' == c')) : Int)
      ≤ ((target.map Char.toUpper).count c' : Int) := by
    intro c'
    have hlen : (target.map Char.toUpper).length = 5 := by
      rw [List.length_map, ht]
    rw [← hlen, count_eq_range_countP]
  obtain ⟨ha, hb⟩ := pass1_inv
    (fun i => (guess.map Char.toUpper).getD i ' ')
    (fun i => (target.map Char.toUpper).getD i ' ')
    (fun c' => ((target.map Char.toUpper).count c' : Int))
    (List.range 5)
    ⟨List.replicate 5 none, fun c' => ((target.map Char.toUpper).count c' : Int)⟩
    h1 h2
  obtain ⟨hc', hd⟩ := pass2_inv
    (fun i => (guess.map Char.toUpper).getD i ' ')
    (fun c' => ((target.map Char.toUpper).count c' : Int))
    (List.range 5)
    _ ha hb
  have := hc' c
  have := hd c
  omega

/-! ## Case-insensitivity of the coloring engine -/

theorem toNat_ofNat_small (m : Nat) (h : m < 55296) : (Char.ofNat m).toNat = m := by
  have hvalid : m.isValidChar := Or.inl h
  rw [Char.ofNat, dif_pos hvalid]
  simp [Char.ofNatAux, Char.toNat, UInt32.toNat, BitVec.toNat_ofNatLt]

theorem toUpper_toLower (ch : Char) : ch.toLower.toUpper = ch.toUpper := by
  simp only [Char.toLower, Char.toUpper]
  by_cases h : 65 ≤ ch.toNat ∧ ch.toNat ≤ 90
  · rw [if_pos h]
    rw [toNat_ofNat_small (ch.toNat + 32) (by omega)]
    rw [if_pos (by omega : 97 ≤ ch.toNat + 32 ∧ ch.toNat + 32 ≤ 122)]
    have heq : ch.toNat + 32 - 32 = ch.toNat := by omega
    rw [heq, Char.ofNat_toNat]
    rw [if_neg (by omega : ¬ (97 ≤ ch.toNat ∧ ch.toNat ≤ 122))]
  · rw [if_neg h]

theorem toUpper_toUpper (ch : Char) : ch.toUpper.toUpper = ch.toUpper := by
  simp only [Char.toUpper]
  by_cases h : 97 ≤ ch.toNat ∧ ch.toNat ≤ 122
  · rw [if_pos h]
    rw [toNat_ofNat_small (ch.toNat - 32) (by omega)]
    rw [if_neg (by omega : ¬ (97 ≤ ch.toNat - 32 ∧ ch.toNat - 32 ≤ 122))]
  · rw [if_neg h]
    rw [if_neg h]

/-- `compute_guess_colors` only sees the uppercased inputs. -/
theorem compute_congr (g g' t t' : List Char)
    (hg : g.map Char.toUpper = g'.map Char.toUpper)
    (ht : t.map Char.toUpper = t'.map Char.toUpper) :
    compute_guess_colors g t = compute_guess_colors g' t' := by
  unfold compute_guess_colors
  dsimp only
  rw [hg, ht]

theorem upper_map_toLower (l : List Char) :
    (l.map Char.toLower).map Char.toUpper = (l.map Char.toUpper).map Char.toUpper := by
  rw [List.map_map, List.map_map]
  apply List.map_congr_left
  intro ch _
  show ch.toLower.toUpper = ch.toUpper.toUpper
  rw [toUpper_toLower, toUpper_toUpper]

/-! ## Transfer of the conservation bound to the code's output -/

theorem conv_pred (c : Char) (e : Option (Char × LetterClass)) :
    ((conv e).1 == String.mk [c] && ((conv e).2 == "green" || (conv e).2 == "orange"))
      = (e == some (c, LetterClass.EXACT) || e == some (c, LetterClass.PRESENT)) := by
  rcases e with _ | ⟨a, cls⟩
  · rw [Bool.eq_iff_iff]
    simp [conv, String.ext_iff]
  · cases cls <;>
      (rw [Bool.eq_iff_iff]; simp [conv, String.ext_iff])

/-! ## Shape lemmas for the request handlers -/

theorem getOrCreateQuota_some {db : DB} {uid d : Nat} {q : QuotaRec}
    (h : findQuota db uid d = some q) : getOrCreateQuota db uid d = (q, db) := by
  unfold getOrCreateQuota
  rw [h]

theorem getOrCreateQuota_none {db : DB} {uid d : Nat}
    (h : findQuota db uid d = none) :
    getOrCreateQuota db uid d
      = (⟨uid, d, 0⟩, { db with quotas := db.quotas ++ [⟨uid, d, 0⟩] }) := by
  unfold getOrCreateQuota
  rw [h]

theorem getOrCreateQuota_games (db : DB) (uid d : Nat) :
    (getOrCreateQuota db uid d).2.games = db.games := by
  cases h : findQuota db uid d with
  | some q => rw [getOrCreateQuota_some h]
  | none => rw [getOrCreateQuota_none h]

theorem getOrCreateQuota_count (db : DB) (uid d : Nat) :
    (getOrCreateQuota db uid d).1.count = quotaCount db uid d := by
  cases h : findQuota db uid d with
  | some q =>
    rw [getOrCreateQuota_some h]
    unfold quotaCount
    rw [h]
    rfl
  | none =>
    rw [getOrCreateQuota_none h]
    unfold quotaCount
    rw [h]
    rfl

theorem find?_append_none {α : Type} {l₁ : List α} (l₂ : List α) {p : α → Bool}
    (h : l₁.find? p = none) : (l₁ ++ l₂).find? p = l₂.find? p := by
  induction l₁ with
  | nil => rfl
  | cons a l ih =>
    cases hp : p a with
    | true => rw [List.find?_cons_of_pos l hp] at h; simp at h
    | false =>
      rw [List.find?_cons_of_neg l (by simp [hp])] at h
      rw [List.cons_append, List.find?_cons_of_neg _ (by simp [hp])]
      exact ih h

theorem quotaCount_getOrCreate (db : DB) (uid d : Nat) :
    quotaCount (getOrCreateQuota db uid d).2 uid d = quotaCount db uid d := by
  cases h : findQuota db uid d with
  | some q => rw [getOrCreateQuota_some h]
  | none =>
    rw [getOrCreateQuota_none h]
    unfold quotaCount findQuota
    unfold findQuota at h
    show ((((db.quotas ++ [(⟨uid, d, 0⟩ : QuotaRec)]).find?
        (fun q : QuotaRec => q.userId == uid && q.date == d)).map QuotaRec.count).getD 0) = _
    rw [find?_append_none _ h, h]
    rw [List.find?_cons_of_pos _ (by simp)]
    rfl

theorem submit_guess_notFound {db : DB} {uid gid : Nat} {raw : List Char} {now : Nat}
    (h : findGame db gid uid = none) :
    submit_guess db uid gid raw now = (SubmitResult.notFound, db) := by
  unfold submit_guess
  rw [h]

theorem submit_guess_finished {db : DB} {uid gid : Nat} {raw : List Char} {now : Nat}
    {game : GameRec} (h : findGame db gid uid = some game)
    (hcg : canGuess db game = false) :
    submit_guess db uid gid raw now = (SubmitResult.gameFinished, db) := by
  unfold submit_guess
  rw [h]
  simp [hcg]

theorem submit_guess_invalid {db : DB} {uid gid : Nat} {raw : List Char} {now : Nat}
    {game : GameRec} (h : findGame db gid uid = some game)
    (hcg : canGuess db game = true) (hcl : cleanGuess raw = none) :
    submit_guess db uid gid raw now = (SubmitResult.invalidGuess, db) := by
  unfold submit_guess
  rw [h]
  simp [hcg, hcl]

theorem submit_guess_valid {db : DB} {uid gid : Nat} {raw : List Char} {now : Nat}
    {game : GameRec} {text : List Char} (h : findGame db gid uid = some game)
    (hcg : canGuess db game = true) (hcl : cleanGuess raw = some text) :
    submit_guess db uid gid raw now =
      (let idx := guessesCount db game.id + 1
       let db1 : DB := { db with guesses := db.guesses ++ [⟨game.id, text, idx⟩] }
       if text = game.target then
         (SubmitResult.wonNow,
          setGame db1 game.id (fun g => { g with won := true, finishedAt := some now }))
       else if 5 ≤ idx then
         (SubmitResult.lostNow,
          setGame db1 game.id (fun g => { g with won := false, finishedAt := some now }))
       else (SubmitResult.keepPlaying, db1)) := by
  unfold submit_guess
  rw [h]
  simp only [hcg, Bool.not_true, Bool.false_eq_true, if_false]
  rw [hcl]

theorem find?_map_update (l : List GameRec) (gid : Nat) (f : GameRec → GameRec)
    (hid : ∀ g, (f g).id = g.id) :
    (l.map (fun g => if g.id == gid then f g else g)).find? (fun g => g.id == gid)
      = (l.find? (fun g => g.id == gid)).map f := by
  induction l with
  | nil => rfl
  | cons a l ih =>
    cases ha : (a.id == gid) with
    | true =>
      simp only [List.map_cons, ha, if_true]
      rw [List.find?_cons_of_pos _ (by simp [hid a]; exact (beq_iff_eq.mp ha)),
        List.find?_cons_of_pos _ (by simp [ha])]
      rfl
    | false =>
      simp only [List.map_cons, ha, if_false]
      rw [List.find?_cons_of_neg _ (by simp [ha]),
        List.find?_cons_of_neg _ (by simp [ha])]
      exact ih

theorem lookupGame_setGame (db : DB) (gid : Nat) (f : GameRec → GameRec)
    (hid : ∀ g, (f g).id = g.id) :
    lookupGame (setGame db gid f) gid = (lookupGame db gid).map f := by
  unfold lookupGame setGame
  exact find?_map_update db.games gid f hid

theorem find?_first_by_id (gid uid : Nat) (g : GameRec) :
    ∀ (l : List GameRec), (l.map GameRec.id).Nodup →
      l.find? (fun g => g.id == gid && g.userId == uid) = some g →
      l.find? (fun g => g.id == gid) = some g := by
  intro l
  induction l with
  | nil => intro _ h; simp at h
  | cons a l ih =>
    intro hnd h
    rw [List.map_cons, List.nodup_cons] at hnd
    cases ha : (a.id == gid && a.userId == uid) with
    | true =>
      simp only [List.find?_cons, ha] at h
      have haid : (a.id == gid) = true := ((Bool.and_eq_true _ _).mp ha).1
      simp only [List.find?_cons, haid]
      exact h
    | false =>
      simp only [List.find?_cons, ha] at h
      cases haid : (a.id == gid) with
      | true =>
        exfalso
        have hg := List.find?_some h
        have hmem := List.mem_of_find?_eq_some h
        have hgid : g.id = gid := beq_iff_eq.mp ((Bool.and_eq_true _ _).mp hg).1
        apply hnd.1
        have hin : gid ∈ l.map GameRec.id := by
          rw [← hgid]
          exact List.mem_map_of_mem GameRec.id hmem
        rwa [beq_iff_eq.mp haid]
      | false =>
        rw [List.find?_cons_of_neg _ (by simp [haid])]
        exact ih hnd.2 h

theorem lookupGame_of_findGame {db : DB} {gid uid : Nat} {g : GameRec}
    (hnd : (db.games.map GameRec.id).Nodup) (h : findGame db gid uid = some g) :
    lookupGame db gid = some g :=
  find?_first_by_id gid uid g db.games hnd h

theorem cleanGuess_eq_none_iff (raw : List Char) :
    cleanGuess raw = none ↔
      ((stripEnds raw).map Char.toUpper).length ≠ 5
        ∨ ¬ (((stripEnds raw).map Char.toUpper).all Char.isAlpha = true) := by
  unfold cleanGuess
  dsimp only
  rw [List.length_map]
  by_cases h1 : (stripEnds raw).isEmpty
  · rw [if_pos h1]
    have : (stripEnds raw).length = 0 := List.isEmpty_iff_length_eq_zero.mp h1
    simp [this]
  · rw [if_neg h1]
    by_cases h2 : 5 < (stripEnds raw).length
    · rw [if_pos h2]
      constructor
      · intro _
        left
        omega
      · intro _
        rfl
    · rw [if_neg h2]
      by_cases h3 : (stripEnds raw).length < 5
      · rw [if_pos h3]
        constructor
        · intro _
          left
          omega
        · intro _
          rfl
      · rw [if_neg h3]
        have hlen : (stripEnds raw).length = 5 := by omega
        rw [if_neg (by omega : ¬ (stripEnds raw).length ≠ 5)]
        by_cases h4 : ((stripEnds raw).map Char.toUpper).all Char.isAlpha
        · rw [if_neg (by simp [h4])]
          simp [h4, hlen]
        · rw [if_pos (by simp [h4])]
          simp [h4]

theorem cleanGuess_some_eq {raw text : List Char} (h : cleanGuess raw = some text) :
    text = (stripEnds raw).map Char.toUpper := by
  unfold cleanGuess at h
  dsimp only at h
  by_cases h1 : (stripEnds raw).isEmpty
  · rw [if_pos h1] at h
    simp at h
  · rw [if_neg h1] at h
    by_cases h2 : 5 < (stripEnds raw).length
    · rw [if_pos h2] at h
      simp at h
    · rw [if_neg h2] at h
      by_cases h3 : (stripEnds raw).length < 5
      · rw [if_pos h3] at h
        simp at h
      · rw [if_neg h3] at h
        by_cases h4 : ((stripEnds raw).map Char.toUpper).length ≠ 5
        · rw [if_pos h4] at h
          simp at h
        · rw [if_neg h4] at h
          by_cases h5 : !((stripEnds raw).map Char.toUpper).all Char.isAlpha
          · rw [if_pos h5] at h
            simp at h
          · rw [if_neg h5] at h
            exact ((Option.some.injEq _ _).mp h).symm

theorem start_game_quotaFull {db : DB} {uid today pick now : Nat}
    (h : 3 ≤ (getOrCreateQuota db uid today).1.count) :
    start_game db uid today pick now
      = (StartResult.quotaExceeded, (getOrCreateQuota db uid today).2) := by
  unfold start_game
  dsimp only
  rw [if_pos h]

theorem start_game_activeGame {db : DB} {uid today pick now : Nat} {g : GameRec}
    (h3 : ¬ 3 ≤ (getOrCreateQuota db uid today).1.count)
    (hfa : firstActive (getOrCreateQuota db uid today).2 uid = some g) :
    start_game db uid today pick now
      = (StartResult.alreadyActive g.id, (getOrCreateQuota db uid today).2) := by
  unfold start_game
  dsimp only
  rw [if_neg h3, hfa]

theorem start_game_games_mem (db : DB) (u d p n : Nat) :
    ∀ g' ∈ db.games, g' ∈ (start_game db u d p n).2.games := by
  intro g' hg'
  have hgames : (getOrCreateQuota db u d).2.games = db.games := getOrCreateQuota_games db u d
  unfold start_game
  dsimp only
  by_cases h3 : 3 ≤ (getOrCreateQuota db u d).1.count
  · rw [if_pos h3]
    rw [hgames]
    exact hg'
  · rw [if_neg h3]
    cases hfa : firstActive (getOrCreateQuota db u d).2 u with
    | some g =>
      rw [hgames]
      exact hg'
    | none =>
      by_cases hw : (getOrCreateQuota db u d).2.words.isEmpty
      · rw [if_pos hw]
        rw [hgames]
        exact hg'
      · rw [if_neg hw]
        show g' ∈ (bumpQuota _ u d).games
        unfold bumpQuota
        dsimp only
        rw [hgames]
        exact List.mem_cons_of_mem _ hg'

/-! ## Claim theorems: coloring engine -/

/-- C1: for every pair of 5-letter alphabetic strings, `compute_guess_colors`
equals the spec's reference two-pass algorithm (frequency count of the
target, pass 1 assigns EXACT at matching positions and decrements, pass 2
walks the remaining positions left to right assigning PRESENT while the
remaining count is positive and ABSENT otherwise), after uppercasing both
inputs, as an ordered sequence of 5 (letter, class) pairs in guess order. -/
theorem compute_guess_colors_matches_spec (guess target : List Char)
    (hg : guess.length = 5) (ht : target.length = 5)
    (hga : guess.all Char.isAlpha = true) (hta : target.all Char.isAlpha = true) :
    compute_guess_colors guess target = (classifySpec guess target).map conv :=
  classify_sim guess target

/-- Witness for C1 at guess "POPUP", target "APPLE". -/
theorem compute_guess_colors_matches_spec_witness :
    ("POPUP".toList.length = 5 ∧ "APPLE".toList.length = 5
      ∧ "POPUP".toList.all Char.isAlpha = true ∧ "APPLE".toList.all Char.isAlpha = true)
    ∧ compute_guess_colors "POPUP".toList "APPLE".toList
        = (classifySpec "POPUP".toList "APPLE".toList).map conv :=
  ⟨by decide, compute_guess_colors_matches_spec "POPUP".toList "APPLE".toList
    (by decide) (by decide) (by decide) (by decide)⟩

/-- C3: for every pair of 5-letter strings and every letter L, the number of
positions classified EXACT or PRESENT with letter L in the output of
`compute_guess_colors` never exceeds the number of occurrences of L in the
(normalized) target. -/
theorem compute_guess_colors_conservation (guess target : List Char)
    (hg : guess.length = 5) (ht : target.length = 5) (L : Char) :
    (compute_guess_colors guess target).countP
        (fun p => p.1 == String.mk [L] && (p.2 == "green" || p.2 == "orange"))
      ≤ (target.map Char.toUpper).count L := by
  have h := classifySpec_claimed_le guess target ht L
  rw [classify_sim, List.countP_map]
  have hpred : ((fun p : String × String =>
        p.1 == String.mk [L] && (p.2 == "green" || p.2 == "orange")) ∘ conv)
      = (fun e => e == some (L, LetterClass.EXACT) || e == some (L, LetterClass.PRESENT)) := by
    funext e
    exact conv_pred L e
  rw [hpred]
  unfold claimed at h
  exact_mod_cast h

/-- Witness for C3 at guess "EERIE", target "SPEED", letter 'E'. -/
theorem compute_guess_colors_conservation_witness :
    ("EERIE".toList.length = 5 ∧ "SPEED".toList.length = 5)
    ∧ (compute_guess_colors "EERIE".toList "SPEED".toList).countP
        (fun p => p.1 == String.mk ['E'] && (p.2 == "green" || p.2 == "orange"))
      ≤ ("SPEED".toList.map Char.toUpper).count 'E' :=
  ⟨by decide, compute_guess_colors_conservation "EERIE".toList "SPEED".toList
    (by decide) (by decide) 'E'⟩

/-- C4 counterexample: the claim predicts `classify("EERIE", "LEMON")` gives
PRESENT (orange) at position 0 and ABSENT (grey) at position 1, but the code
gives grey at position 0 and green (EXACT) at position 1, because position 1
is an exact match (E = E) consuming LEMON's only E in pass 1. -/
theorem compute_guess_colors_eerie_refutes :
    ¬ ((compute_guess_colors "EERIE".toList "LEMON".toList).getD 0 ("", "")
          = ("E", "orange")
        ∧ (compute_guess_colors "EERIE".toList "LEMON".toList).getD 1 ("", "")
          = ("E", "grey")) := by
  decide

/-- C4 (amended): `classify("POPUP", "APPLE")` gives EXACT at position 2
('P'); `classify("EERIE", "LEMON")` gives EXACT at position 1 ('E', the
exact match) and ABSENT at position 0 ('E', LEMON's single E having been
consumed by the pass-1 exact match). -/
theorem compute_guess_colors_duplicates :
    (compute_guess_colors "POPUP".toList "APPLE".toList).getD 2 ("", "")
        = ("P", "green")
    ∧ (compute_guess_colors "EERIE".toList "LEMON".toList).getD 1 ("", "")
        = ("E", "green")
    ∧ (compute_guess_colors "EERIE".toList "LEMON".toList).getD 0 ("", "")
        = ("E", "grey") := by
  decide

/-- C9: `compute_guess_colors` is case-insensitive: lowercasing the guess
(or the target) does not change the output. -/
theorem compute_guess_colors_case_insensitive (G T : List Char)
    (hg : G.length = 5) (ht : T.length = 5)
    (hga : G.all Char.isAlpha = true) (hta : T.all Char.isAlpha = true) :
    compute_guess_colors (G.map Char.toLower) (T.map Char.toUpper)
      = compute_guess_colors (G.map Char.toUpper) (T.map Char.toUpper)
    ∧ compute_guess_colors (G.map Char.toUpper) (T.map Char.toLower)
      = compute_guess_colors (G.map Char.toUpper) (T.map Char.toUpper) := by
  constructor
  · exact compute_congr _ _ _ _ (upper_map_toLower G) rfl
  · exact compute_congr _ _ _ _ rfl (upper_map_toLower T)

/-- Witness for C9 at G = "apple", T = "APPLE". -/
theorem compute_guess_colors_case_insensitive_witness :
    ("apple".toList.length = 5 ∧ "APPLE".toList.length = 5
      ∧ "apple".toList.all Char.isAlpha = true ∧ "APPLE".toList.all Char.isAlpha = true)
    ∧ (compute_guess_colors ("apple".toList.map Char.toLower)
          ("APPLE".toList.map Char.toUpper)
        = compute_guess_colors ("apple".toList.map Char.toUpper)
            ("APPLE".toList.map Char.toUpper)
      ∧ compute_guess_colors ("apple".toList.map Char.toUpper)
          ("APPLE".toList.map Char.toLower)
        = compute_guess_colors ("apple".toList.map Char.toUpper)
            ("APPLE".toList.map Char.toUpper)) :=
  ⟨by decide, compute_guess_colors_case_insensitive "apple".toList "APPLE".toList
    (by decide) (by decide) (by decide) (by decide)⟩

/-! ## Claim theorems: game/quota state controller -/

/-- C5: when today's quota row exists with count at least 3, `start_game`
fails with QuotaExceeded and leaves the store — games and quota rows —
completely unchanged. -/
theorem start_game_quota_exceeded (db : DB) (uid today pick now : Nat) (q : QuotaRec)
    (hq : findQuota db uid today = some q) (hc : 3 ≤ q.count) :
    start_game db uid today pick now = (StartResult.quotaExceeded, db) := by
  have h1 := getOrCreateQuota_some hq
  have h : 3 ≤ (getOrCreateQuota db uid today).1.count := by
    rw [h1]
    exact hc
  rw [start_game_quotaFull h, h1]

/-- Witness for C5: a 4th start attempt with today's count at 3. -/
theorem start_game_quota_exceeded_witness :
    (findQuota ⟨[], [], [⟨7, 0, 3⟩], [], 1⟩ 7 0 = some ⟨7, 0, 3⟩ ∧ 3 ≤ (3 : Nat))
    ∧ start_game ⟨[], [], [⟨7, 0, 3⟩], [], 1⟩ 7 0 0 0
        = (StartResult.quotaExceeded, ⟨[], [], [⟨7, 0, 3⟩], [], 1⟩) :=
  ⟨⟨by decide, by decide⟩,
    start_game_quota_exceeded ⟨[], [], [⟨7, 0, 3⟩], [], 1⟩ 7 0 0 0 ⟨7, 0, 3⟩
      (by decide) (by decide)⟩

/-- C6: when today's quota count is below 3 but the user has an active
(unfinished) game, `start_game` fails with GameAlreadyActive carrying that
game's id, creates no game, and leaves the quota count unchanged; the
reported game belongs to the user and is indeed unfinished. -/
theorem start_game_already_active (db : DB) (uid today pick now : Nat) (g : GameRec)
    (hcnt : quotaCount db uid today < 3) (hfa : firstActive db uid = some g) :
    (start_game db uid today pick now).1 = StartResult.alreadyActive g.id
    ∧ (start_game db uid today pick now).2.games = db.games
    ∧ quotaCount (start_game db uid today pick now).2 uid today
        = quotaCount db uid today
    ∧ g.userId = uid ∧ g.finishedAt = none := by
  have h3 : ¬ 3 ≤ (getOrCreateQuota db uid today).1.count := by
    rw [getOrCreateQuota_count]
    omega
  have hfa' : firstActive (getOrCreateQuota db uid today).2 uid = some g := by
    unfold firstActive
    rw [getOrCreateQuota_games]
    exact hfa
  rw [start_game_activeGame h3 hfa']
  have hprop := List.find?_some hfa
  have huid : g.userId = uid :=
    beq_iff_eq.mp ((Bool.and_eq_true _ _).mp hprop).1
  have hfin : g.finishedAt = none :=
    Option.isNone_iff_eq_none.mp ((Bool.and_eq_true _ _).mp hprop).2
  exact ⟨rfl, getOrCreateQuota_games db uid today,
    quotaCount_getOrCreate db uid today, huid, hfin⟩

/-- Witness for C6: a second start attempt while game 1 is active. -/
theorem start_game_already_active_witness :
    (quotaCount ⟨[⟨1, 7, [], 0, none, false⟩], [], [⟨7, 0, 1⟩], [], 2⟩ 7 0 < 3
      ∧ firstActive ⟨[⟨1, 7, [], 0, none, false⟩], [], [⟨7, 0, 1⟩], [], 2⟩ 7
          = some ⟨1, 7, [], 0, none, false⟩)
    ∧ ((start_game ⟨[⟨1, 7, [], 0, none, false⟩], [], [⟨7, 0, 1⟩], [], 2⟩ 7 0 0 0).1
          = StartResult.alreadyActive 1
        ∧ (start_game ⟨[⟨1, 7, [], 0, none, false⟩], [], [⟨7, 0, 1⟩], [], 2⟩ 7 0 0 0).2.games
          = [⟨1, 7, [], 0, none, false⟩]
        ∧ quotaCount (start_game ⟨[⟨1, 7, [], 0, none, false⟩], [], [⟨7, 0, 1⟩], [], 2⟩ 7 0 0 0).2 7 0
          = quotaCount ⟨[⟨1, 7, [], 0, none, false⟩], [], [⟨7, 0, 1⟩], [], 2⟩ 7 0
        ∧ (⟨1, 7, [], 0, none, false⟩ : GameRec).userId = 7
        ∧ (⟨1, 7, [], 0, none, false⟩ : GameRec).finishedAt = none) :=
  ⟨⟨by decide, by decide⟩,
    start_game_already_active ⟨[⟨1, 7, [], 0, none, false⟩], [], [⟨7, 0, 1⟩], [], 2⟩
      7 0 0 0 ⟨1, 7, [], 0, none, false⟩ (by decide) (by decide)⟩

/-- C7: when the looked-up game is finished (completion timestamp set) or
already has 5 recorded guesses, `submit_guess` fails with GameFinished and
returns the store unchanged — no guess is recorded and no game or quota row
is touched; moreover `start_game` never removes or modifies an existing
game row, so no operation transitions a game out of a terminal state. -/
theorem submit_guess_game_finished (db : DB) (uid gid now : Nat) (raw : List Char)
    (g : GameRec) (hfind : findGame db gid uid = some g)
    (hfin : g.finishedAt ≠ none ∨ 5 ≤ guessesCount db g.id) :
    submit_guess db uid gid raw now = (SubmitResult.gameFinished, db)
    ∧ ∀ u d p n, ∀ g' ∈ db.games, g' ∈ (start_game db u d p n).2.games := by
  have hcg : canGuess db g = false := by
    unfold canGuess
    rcases hfin with hfin | hfin
    · have : g.finishedAt.isNone = false := by
        cases hg : g.finishedAt with
        | none => exact absurd hg hfin
        | some v => rfl
      rw [this]
      rfl
    · have : decide (guessesCount db g.id < 5) = false :=
        decide_eq_false (by omega)
      rw [this]
      exact Bool.and_false _
  exact ⟨submit_guess_finished hfind hcg,
    fun u d p n => start_game_games_mem db u d p n⟩

/-- Witness for C7: a guess against a finished (won) game. -/
theorem submit_guess_game_finished_witness :
    (findGame ⟨[⟨1, 7, [], 0, some 5, true⟩], [], [], [], 2⟩ 1 7
        = some ⟨1, 7, [], 0, some 5, true⟩
      ∧ ((⟨1, 7, [], 0, some 5, true⟩ : GameRec).finishedAt ≠ none
          ∨ 5 ≤ guessesCount ⟨[⟨1, 7, [], 0, some 5, true⟩], [], [], [], 2⟩ 1))
    ∧ (submit_guess ⟨[⟨1, 7, [], 0, some 5, true⟩], [], [], [], 2⟩ 7 1 [] 9
        = (SubmitResult.gameFinished, ⟨[⟨1, 7, [], 0, some 5, true⟩], [], [], [], 2⟩)
      ∧ ∀ u d p n, ∀ g' ∈ (⟨[⟨1, 7, [], 0, some 5, true⟩], [], [], [], 2⟩ : DB).games,
          g' ∈ (start_game ⟨[⟨1, 7, [], 0, some 5, true⟩], [], [], [], 2⟩ u d p n).2.games) :=
  ⟨⟨by decide, Or.inl (by decide)⟩,
    submit_guess_game_finished ⟨[⟨1, 7, [], 0, some 5, true⟩], [], [], [], 2⟩ 7 1 9 []
      ⟨1, 7, [], 0, some 5, true⟩ (by decide) (Or.inl (by decide))⟩

/-- C2: on an active game with fewer than 5 guesses and a valid cleaned
guess, `submit_guess` appends a Guess row with index `previous count + 1`,
and then: a guess equal to the target transitions the game to WON with a
completion timestamp (even on the 5th guess); otherwise a 5th guess
transitions it to LOST with a completion timestamp; otherwise the game row
is left unchanged (still ACTIVE). -/
theorem submit_guess_valid_transitions (db : DB) (uid gid now : Nat)
    (raw text : List Char) (g : GameRec)
    (hnd : (db.games.map GameRec.id).Nodup)
    (hfind : findGame db gid uid = some g)
    (hact : g.finishedAt = none)
    (hlt : guessesCount db g.id < 5)
    (hclean : cleanGuess raw = some text) :
    (submit_guess db uid gid raw now).2.guesses
        = db.guesses ++ [⟨g.id, text, guessesCount db g.id + 1⟩]
    ∧ (text = g.target →
        (submit_guess db uid gid raw now).1 = SubmitResult.wonNow
        ∧ lookupGame (submit_guess db uid gid raw now).2 gid
            = some { g with won := true, finishedAt := some now })
    ∧ (text ≠ g.target → guessesCount db g.id + 1 = 5 →
        (submit_guess db uid gid raw now).1 = SubmitResult.lostNow
        ∧ lookupGame (submit_guess db uid gid raw now).2 gid
            = some { g with won := false, finishedAt := some now })
    ∧ (text ≠ g.target → guessesCount db g.id + 1 < 5 →
        (submit_guess db uid gid raw now).1 = SubmitResult.keepPlaying
        ∧ lookupGame (submit_guess db uid gid raw now).2 gid = some g) := by
  have hgid : g.id = gid := by
    unfold findGame at hfind
    have h := List.find?_some hfind
    exact beq_iff_eq.mp ((Bool.and_eq_true _ _).mp h).1
  subst hgid
  have hcg : canGuess db g = true := by
    unfold canGuess
    rw [hact]
    simp [hlt]
  have hlook : lookupGame db g.id = some g := lookupGame_of_findGame hnd hfind
  have hdb1 : lookupGame
      { db with guesses := db.guesses ++ [⟨g.id, text, guessesCount db g.id + 1⟩] } g.id
      = some g := hlook
  rw [submit_guess_valid hfind hcg hclean]
  dsimp only
  by_cases hw : text = g.target
  · rw [if_pos hw]
    refine ⟨rfl, fun _ => ⟨rfl, ?_⟩,
      fun hne _ => absurd hw hne, fun hne _ => absurd hw hne⟩
    rw [lookupGame_setGame _ g.id
      (fun g' => { g' with won := true, finishedAt := some now }) (fun g' => rfl), hdb1]
    rfl
  · rw [if_neg hw]
    by_cases h5 : 5 ≤ guessesCount db g.id + 1
    · rw [if_pos h5]
      refine ⟨rfl, fun heq => absurd heq hw,
        fun _ _ => ⟨rfl, ?_⟩, fun _ hlt2 => absurd h5 (by omega)⟩
      rw [lookupGame_setGame _ g.id
        (fun g' => { g' with won := false, finishedAt := some now }) (fun g' => rfl), hdb1]
      rfl
    · rw [if_neg h5]
      refine ⟨rfl, fun heq => absurd heq hw,
        fun _ h5' => absurd (by omega : 5 ≤ guessesCount db g.id + 1) h5,
        fun _ _ => ⟨rfl, hdb1⟩⟩

/-- Witness for C2: guessing the target "CRANE" on an active game wins it. -/
theorem submit_guess_valid_transitions_witness :
    ((((⟨[⟨1, 7, "CRANE".toList, 0, none, false⟩], [], [], [], 2⟩ : DB)).games.map
          GameRec.id).Nodup
      ∧ findGame ⟨[⟨1, 7, "CRANE".toList, 0, none, false⟩], [], [], [], 2⟩ 1 7
          = some ⟨1, 7, "CRANE".toList, 0, none, false⟩
      ∧ (⟨1, 7, "CRANE".toList, 0, none, false⟩ : GameRec).finishedAt = none
      ∧ guessesCount ⟨[⟨1, 7, "CRANE".toList, 0, none, false⟩], [], [], [], 2⟩ 1 < 5
      ∧ cleanGuess "crane".toList = some "CRANE".toList)
    ∧ ((submit_guess ⟨[⟨1, 7, "CRANE".toList, 0, none, false⟩], [], [], [], 2⟩ 7 1
            "crane".toList 9).2.guesses
          = [] ++ [⟨(⟨1, 7, "CRANE".toList, 0, none, false⟩ : GameRec).id, "CRANE".toList,
              guessesCount ⟨[⟨1, 7, "CRANE".toList, 0, none, false⟩], [], [], [], 2⟩
                (⟨1, 7, "CRANE".toList, 0, none, false⟩ : GameRec).id + 1⟩]
        ∧ ("CRANE".toList = (⟨1, 7, "CRANE".toList, 0, none, false⟩ : GameRec).target →
            (submit_guess ⟨[⟨1, 7, "CRANE".toList, 0, none, false⟩], [], [], [], 2⟩ 7 1
                "crane".toList 9).1 = SubmitResult.wonNow
            ∧ lookupGame (submit_guess ⟨[⟨1, 7, "CRANE".toList, 0, none, false⟩],
                  [], [], [], 2⟩ 7 1 "crane".toList 9).2 1
              = some { (⟨1, 7, "CRANE".toList, 0, none, false⟩ : GameRec) with
                  won := true, finishedAt := some 9 })
        ∧ ("CRANE".toList ≠ (⟨1, 7, "CRANE".toList, 0, none, false⟩ : GameRec).target →
            guessesCount ⟨[⟨1, 7, "CRANE".toList, 0, none, false⟩], [], [], [], 2⟩
                (⟨1, 7, "CRANE".toList, 0, none, false⟩ : GameRec).id + 1 = 5 →
            (submit_guess ⟨[⟨1, 7, "CRANE".toList, 0, none, false⟩], [], [], [], 2⟩ 7 1
                "crane".toList 9).1 = SubmitResult.lostNow
            ∧ lookupGame (submit_guess ⟨[⟨1, 7, "CRANE".toList, 0, none, false⟩],
                  [], [], [], 2⟩ 7 1 "crane".toList 9).2 1
              = some { (⟨1, 7, "CRANE".toList, 0, none, false⟩ : GameRec) with
                  won := false, finishedAt := some 9 })
        ∧ ("CRANE".toList ≠ (⟨1, 7, "CRANE".toList, 0, none, false⟩ : GameRec).target →
            guessesCount ⟨[⟨1, 7, "CRANE".toList, 0, none, false⟩], [], [], [], 2⟩
                (⟨1, 7, "CRANE".toList, 0, none, false⟩ : GameRec).id + 1 < 5 →
            (submit_guess ⟨[⟨1, 7, "CRANE".toList, 0, none, false⟩], [], [], [], 2⟩ 7 1
                "crane".toList 9).1 = SubmitResult.keepPlaying
            ∧ lookupGame (submit_guess ⟨[⟨1, 7, "CRANE".toList, 0, none, false⟩],
                  [], [], [], 2⟩ 7 1 "crane".toList 9).2 1
              = some ⟨1, 7, "CRANE".toList, 0, none, false⟩)) :=
  ⟨⟨by decide, by decide, by decide, by decide, by decide⟩,
    submit_guess_valid_transitions ⟨[⟨1, 7, "CRANE".toList, 0, none, false⟩], [], [], [], 2⟩
      7 1 9 "crane".toList "CRANE".toList ⟨1, 7, "CRANE".toList, 0, none, false⟩
      (by decide) (by decide) (by decide) (by decide) (by decide)⟩

/-- C8 (amended): for an active game, `submit_guess` fails with InvalidGuess
iff the whitespace-stripped, uppercased text has length different from 5 or
contains a non-alphabetic character, and on such failure the store is
completely unchanged (no Guess recorded, no game or quota mutated). -/
theorem submit_guess_invalid_iff (db : DB) (uid gid now : Nat) (raw : List Char)
    (g : GameRec) (hfind : findGame db gid uid = some g)
    (hact : g.finishedAt = none) (hlt : guessesCount db g.id < 5) :
    ((submit_guess db uid gid raw now).1 = SubmitResult.invalidGuess
        ↔ ((stripEnds raw).map Char.toUpper).length ≠ 5
          ∨ ¬ (((stripEnds raw).map Char.toUpper).all Char.isAlpha = true))
    ∧ ((submit_guess db uid gid raw now).1 = SubmitResult.invalidGuess →
        (submit_guess db uid gid raw now).2 = db) := by
  have hcg : canGuess db g = true := by
    unfold canGuess
    rw [hact]
    simp [hlt]
  cases hcl : cleanGuess raw with
  | none =>
    rw [submit_guess_invalid hfind hcg hcl]
    exact ⟨⟨fun _ => (cleanGuess_eq_none_iff raw).mp hcl, fun _ => rfl⟩, fun _ => rfl⟩
  | some text =>
    have hres : (submit_guess db uid gid raw now).1 = SubmitResult.wonNow
        ∨ (submit_guess db uid gid raw now).1 = SubmitResult.lostNow
        ∨ (submit_guess db uid gid raw now).1 = SubmitResult.keepPlaying := by
      rw [submit_guess_valid hfind hcg hcl]
      dsimp only
      by_cases hw : text = g.target
      · rw [if_pos hw]
        left
        rfl
      · rw [if_neg hw]
        by_cases h5 : 5 ≤ guessesCount db g.id + 1
        · rw [if_pos h5]
          right
          left
          rfl
        · rw [if_neg h5]
          right
          right
          rfl
    have hnotinv : (submit_guess db uid gid raw now).1 ≠ SubmitResult.invalidGuess := by
      rcases hres with h | h | h <;> rw [h] <;> intro hcontra <;> cases hcontra
    refine ⟨⟨fun h => absurd h hnotinv, fun hcond => ?_⟩, fun h => absurd h hnotinv⟩
    exfalso
    have hnone := (cleanGuess_eq_none_iff raw).mpr hcond
    rw [hnone] at hcl
    exact Option.noConfusion hcl

/-- Witness for C8 (amended): an active game and the raw text "cr4ne "
(stripped-uppercased "CR4NE": length 5 but not alphabetic). -/
theorem submit_guess_invalid_iff_witness :
    (findGame ⟨[⟨1, 7, "CRANE".toList, 0, none, false⟩], [], [], [], 2⟩ 1 7
        = some ⟨1, 7, "CRANE".toList, 0, none, false⟩
      ∧ (⟨1, 7, "CRANE".toList, 0, none, false⟩ : GameRec).finishedAt = none
      ∧ guessesCount ⟨[⟨1, 7, "CRANE".toList, 0, none, false⟩], [], [], [], 2⟩ 1 < 5)
    ∧ (((submit_guess ⟨[⟨1, 7, "CRANE".toList, 0, none, false⟩], [], [], [], 2⟩ 7 1
            "cr4ne ".toList 9).1 = SubmitResult.invalidGuess
          ↔ ((stripEnds "cr4ne ".toList).map Char.toUpper).length ≠ 5
            ∨ ¬ (((stripEnds "cr4ne ".toList).map Char.toUpper).all Char.isAlpha = true))
        ∧ ((submit_guess ⟨[⟨1, 7, "CRANE".toList, 0, none, false⟩], [], [], [], 2⟩ 7 1
              "cr4ne ".toList 9).1 = SubmitResult.invalidGuess →
            (submit_guess ⟨[⟨1, 7, "CRANE".toList, 0, none, false⟩], [], [], [], 2⟩ 7 1
                "cr4ne ".toList 9).2
              = ⟨[⟨1, 7, "CRANE".toList, 0, none, false⟩], [], [], [], 2⟩)) :=
  ⟨⟨by decide, by decide, by decide⟩,
    submit_guess_invalid_iff ⟨[⟨1, 7, "CRANE".toList, 0, none, false⟩], [], [], [], 2⟩
      7 1 9 "cr4ne ".toList ⟨1, 7, "CRANE".toList, 0, none, false⟩
      (by decide) (by decide) (by decide)⟩

/-- C8 counterexample: the raw text " HELLO " uppercases to a string of
length 7 (≠ 5), so the claim as stated predicts an InvalidGuess failure,
but the form's whitespace stripping makes the code accept it. -/
theorem submit_guess_invalid_iff_refuted :
    ((" HELLO ".toList.map Char.toUpper).length ≠ 5)
    ∧ (submit_guess ⟨[⟨1, 7, "CRANE".toList, 0, none, false⟩], [], [], [], 2⟩ 7 1
          (" HELLO ".toList) 9).1 ≠ SubmitResult.invalidGuess := by
  exact ⟨by decide, by decide⟩

/-- C10: `submit_guess` strips leading and trailing whitespace before
validating, so the raw input "  hello " — of raw length 8, not 5 — is
accepted (no InvalidGuess) and recorded as the 5-letter uppercase guess
"HELLO" at index `previous count + 1`. -/
theorem submit_guess_strips_whitespace (db : DB) (uid gid now : Nat) (g : GameRec)
    (hfind : findGame db gid uid = some g)
    (hact : g.finishedAt = none) (hlt : guessesCount db g.id < 5) :
    "  hello ".toList.length ≠ 5
    ∧ (submit_guess db uid gid ("  hello ".toList) now).1 ≠ SubmitResult.invalidGuess
    ∧ (submit_guess db uid gid ("  hello ".toList) now).2.guesses
        = db.guesses ++ [⟨g.id, "HELLO".toList, guessesCount db g.id + 1⟩] := by
  have hcg : canGuess db g = true := by
    unfold canGuess
    rw [hact]
    simp [hlt]
  have hclean : cleanGuess ("  hello ".toList) = some ("HELLO".toList) := by decide
  rw [submit_guess_valid hfind hcg hclean]
  dsimp only
  refine ⟨by decide, ?_, ?_⟩
  · by_cases hw : "HELLO".toList = g.target
    · rw [if_pos hw]
      intro hcontra
      cases hcontra
    · rw [if_neg hw]
      by_cases h5 : 5 ≤ guessesCount db g.id + 1
      · rw [if_pos h5]
        intro hcontra
        cases hcontra
      · rw [if_neg h5]
        intro hcontra
        cases hcontra
  · by_cases hw : "HELLO".toList = g.target
    · rw [if_pos hw]
      rfl
    · rw [if_neg hw]
      by_cases h5 : 5 ≤ guessesCount db g.id + 1
      · rw [if_pos h5]
        rfl
      · rw [if_neg h5]

/-- Witness for C10: the raw guess "  hello " against an active game. -/
theorem submit_guess_strips_whitespace_witness :
    (findGame ⟨[⟨1, 7, "CRANE".toList, 0, none, false⟩], [], [], [], 2⟩ 1 7
        = some ⟨1, 7, "CRANE".toList, 0, none, false⟩
      ∧ (⟨1, 7, "CRANE".toList, 0, none, false⟩ : GameRec).finishedAt = none
      ∧ guessesCount ⟨[⟨1, 7, "CRANE".toList, 0, none, false⟩], [], [], [], 2⟩ 1 < 5)
    ∧ ("  hello ".toList.length ≠ 5
        ∧ (submit_guess ⟨[⟨1, 7, "CRANE".toList, 0, none, false⟩], [], [], [], 2⟩ 7 1
              ("  hello ".toList) 9).1 ≠ SubmitResult.invalidGuess
        ∧ (submit_guess ⟨[⟨1, 7, "CRANE".toList, 0, none, false⟩], [], [], [], 2⟩ 7 1
              ("  hello ".toList) 9).2.guesses
            = [] ++ [⟨(⟨1, 7, "CRANE".toList, 0, none, false⟩ : GameRec).id, "HELLO".toList,
                guessesCount ⟨[⟨1, 7, "CRANE".toList, 0, none, false⟩], [], [], [], 2⟩
                  (⟨1, 7, "CRANE".toList, 0, none, false⟩ : GameRec).id + 1⟩]) :=
  ⟨⟨by decide, by decide, by decide⟩,
    submit_guess_strips_whitespace ⟨[⟨1, 7, "CRANE".toList, 0, none, false⟩], [], [], [], 2⟩
      7 1 9 ⟨1, 7, "CRANE".toList, 0, none, false⟩ (by decide) (by decide) (by decide)⟩
